import Mathlib

set_option linter.unusedVariables false

namespace Cpconfig

/-- Warehouse incrementalization strategies, from the MaterializeIncrementalType enum. -/
inductive MaterializeIncrementalType where
  | BIGQUERY
  | REDSHIFT
deriving DecidableEq

/-- Column classification, from the ColumnType enum. -/
inductive ColumnType where
  | CONTINUOUS
  | CATEGORICAL
  | BOOLEAN
deriving DecidableEq

/-- Value formatters for continuous columns, from the ContinuousValueFormatter enum. -/
inductive ContinuousValueFormatter where
  | DAYS
  | MINUTES
deriving DecidableEq

/-- Python truthiness of an optional string: None and the empty string are falsy. -/
def truthyStr : Option String → Bool
  | none => false
  | some s => !s.isEmpty

/-- Python truthiness of an optional string list: None and the empty list are falsy. -/
def truthyList : Option (List String) → Bool
  | none => false
  | some l => !l.isEmpty

/-- The Profile dataclass. -/
structure Profile where
  materialize_incremental_type : MaterializeIncrementalType
deriving DecidableEq

/-- The SyncFrom dataclass. The config field is a Dict of str to Any in the
source; it is modelled as string pairs since no derivation inspects its values. -/
structure SyncFrom where
  tap_name : String
  tap_url : Option String
  credential_key : String
  config : Option (List (String × String))
deriving DecidableEq

/-- The Source dataclass fields. The Python field named where is spelled
where_ because where is a Lean keyword. -/
structure Source where
  name : String
  table : Option String
  create_view : Option String
  cp_user_id : Option String
  cp_date : Option String
  where_ : Option String
  where_incremental : Option String
  join_using : Option (List String)
  group_by : Option (List String)
  sync_from : Option SyncFrom
deriving DecidableEq

/-- Python x or y on lists: the left list unless it is falsy (empty). -/
def pyOrList (a b : List String) : List String :=
  if a.isEmpty then b else a

/-- Source.group_by_columns: the explicit group_by when it is not None, else
the literal pair of canonical key names when both keys are truthy, else empty. -/
def Source.group_by_columns (s : Source) : List String :=
  match s.group_by with
  | some l => l
  | none =>
    if truthyStr s.cp_user_id && truthyStr s.cp_date then ["cp_user_id", "cp_date"] else []

/-- Source.join_using_columns: join_using or group_by or the filtered list of
canonical key names, each step taken when the previous value is falsy. -/
def Source.join_using_columns (s : Source) : List String :=
  pyOrList (s.join_using.getD [])
    (pyOrList (s.group_by.getD [])
      (List.filterMap id
        [if truthyStr s.cp_user_id then some "cp_user_id" else none,
         if truthyStr s.cp_date then some "cp_date" else none]))

/-- The mode list of Source.post_init: the truthy entries among table,
create_view and sync_from, as in list of filter None applied to them. -/
def Source.mode (s : Source) : List Unit :=
  List.filterMap id
    [if truthyStr s.table then some () else none,
     if truthyStr s.create_view then some () else none,
     if s.sync_from.isSome then some () else none]

/-- Source construction: models the frozen dataclass constructor running
post_init; an ok result models a successfully constructed instance. -/
def Source.validate (s : Source) : Except String Source :=
  if s.mode.length ≠ 1 then
    Except.error "A source must have exactly either table or create_view or sync_from field"
  else if s.join_using_columns.isEmpty then
    Except.error "A source must have either cp_user_id, cp_date, or join_using"
  else Except.ok s

/-- Source hashing is by name: hash of self.name. The name is kept as the hash
key so that equal names give equal hash keys, as in the Python hash method. -/
def Source.hashKey (s : Source) : String := s.name

/-- The Segmentation dataclass. humanize is a Union of str and List of str,
modelled as a Sum. -/
structure Segmentation where
  type : ColumnType
  humanize : Option (Sum String (List String)) := none
  value_formatter : Option ContinuousValueFormatter := none
deriving DecidableEq

/-- Segmentation construction: models the frozen dataclass constructor running
post_init. Both checks are nested under the test that humanize is not None,
exactly as in the source. -/
def Segmentation.validate (s : Segmentation) : Except String Segmentation :=
  match s.humanize with
  | none => Except.ok s
  | some h =>
    if s.value_formatter.isSome ∧ s.type ≠ ColumnType.CONTINUOUS then
      Except.error "Only CONTINUOUS columns can have value_formatter"
    else
      match h with
      | Sum.inl str =>
        if s.type = ColumnType.BOOLEAN then
          Except.error "CONTINUOUS and CATEGORICAL columns take a string humanize, BOOLEAN columns take a list of strings for the true and false cases"
        else Except.ok s
      | Sum.inr strs => Except.ok s

/-- Binary SQL operators appearing in expression fragments. -/
inductive BinOp where
  | add
  | sub
  | mul
  | div
deriving DecidableEq

mutual

/-- Modelled from the spec: the Expression Analyzer syntax tree (section 4.1).
The repository delegates SQL-fragment parsing to the external sqlglot library,
which is not under src; this mirrors the node kinds the claims exercise:
column references, numeric literals, binary arithmetic, function calls and
parenthesized expressions. -/
inductive Expression where
  | column (name : String)
  | numLit (n : Nat)
  | binary (op : BinOp) (l r : Expression)
  | call (name : String) (args : ExpressionList)
  | paren (e : Expression)
deriving DecidableEq

/-- Argument lists of a function call node. -/
inductive ExpressionList where
  | nil
  | cons (e : Expression) (es : ExpressionList)
deriving DecidableEq

end

/-- Aggregate function names of the dialect grammar, as in the spec: count,
sum, avg and so on are parsed as aggregate-function invocations. -/
def aggFuncNames : List String := ["SUM", "COUNT", "AVG", "MIN", "MAX"]

/-- Whether a function name denotes an aggregate invocation. -/
def isAggName (s : String) : Bool := aggFuncNames.contains s

mutual

/-- Modelled from the spec: extractColumnNames (section 4.1) returns every
column-reference identifier in tree-traversal order, duplicates preserved. -/
def Expression.columnsOf : Expression → List String
  | Expression.column n => [n]
  | Expression.numLit _ => []
  | Expression.binary _ l r => l.columnsOf ++ r.columnsOf
  | Expression.call _ args => args.columnsOf
  | Expression.paren e => e.columnsOf

/-- Column identifiers of an argument list, left to right. -/
def ExpressionList.columnsOf : ExpressionList → List String
  | ExpressionList.nil => []
  | ExpressionList.cons e es => e.columnsOf ++ es.columnsOf

end

mutual

/-- Modelled from the spec: containsAggregate (section 4.1) is true iff some
node of the tree is an aggregate-function invocation. -/
def Expression.containsAgg : Expression → Bool
  | Expression.column _ => false
  | Expression.numLit _ => false
  | Expression.binary _ l r => l.containsAgg || r.containsAgg
  | Expression.call n args => isAggName n || args.containsAgg
  | Expression.paren e => e.containsAgg

/-- Aggregate search over an argument list. -/
def ExpressionList.containsAgg : ExpressionList → Bool
  | ExpressionList.nil => false
  | ExpressionList.cons e es => e.containsAgg || es.containsAgg

end

/-- Tokens of the SQL expression-fragment lexer. -/
inductive Tok where
  | ident (s : String)
  | num (n : Nat)
  | lparen
  | rparen
  | comma
  | plus
  | minus
  | star
  | slash
deriving DecidableEq

/-- Identifier characters: letters, digits and underscore. -/
def isIdentChar (c : Char) : Bool := c.isAlphanum || c = '_'

/-- Identifier start characters: letters and underscore. -/
def isIdentStart (c : Char) : Bool := c.isAlpha || c = '_'

/-- Splits the longest identifier-character run off the front of a list. -/
def spanIdent : List Char → List Char × List Char
  | [] => ([], [])
  | c :: cs =>
    if isIdentChar c then
      let p := spanIdent cs
      (c :: p.1, p.2)
    else ([], c :: cs)

/-- Splits the longest digit run off the front of a list. -/
def spanDigits : List Char → List Char × List Char
  | [] => ([], [])
  | c :: cs =>
    if c.isDigit then
      let p := spanDigits cs
      (c :: p.1, p.2)
    else ([], c :: cs)

/-- Numeric value of a digit run. -/
def digitsToNat (cs : List Char) : Nat :=
  cs.foldl (fun acc c => acc * 10 + (c.toNat - '0'.toNat)) 0

/-- Fuel-driven lexer over the character list. -/
def tokenizeAux : Nat → List Char → Option (List Tok)
  | 0, _ => none
  | _, [] => some []
  | Nat.succ fuel, c :: cs =>
    if c = ' ' then tokenizeAux fuel cs
    else if c = '(' then (tokenizeAux fuel cs).map (fun ts => Tok.lparen :: ts)
    else if c = ')' then (tokenizeAux fuel cs).map (fun ts => Tok.rparen :: ts)
    else if c = ',' then (tokenizeAux fuel cs).map (fun ts => Tok.comma :: ts)
    else if c = '+' then (tokenizeAux fuel cs).map (fun ts => Tok.plus :: ts)
    else if c = '-' then (tokenizeAux fuel cs).map (fun ts => Tok.minus :: ts)
    else if c = '*' then (tokenizeAux fuel cs).map (fun ts => Tok.star :: ts)
    else if c = '/' then (tokenizeAux fuel cs).map (fun ts => Tok.slash :: ts)
    else if isIdentStart c then
      let p := spanIdent cs
      (tokenizeAux fuel p.2).map (fun ts => Tok.ident (String.mk (c :: p.1)) :: ts)
    else if c.isDigit then
      let p := spanDigits cs
      (tokenizeAux fuel p.2).map (fun ts => Tok.num (digitsToNat (c :: p.1)) :: ts)
    else none

/-- Lexes an expression fragment into tokens; none on a foreign character. -/
def tokenize (s : String) : Option (List Tok) :=
  tokenizeAux (s.length + 1) s.data

/-- Converts a parsed argument list to the tree representation. -/
def listToExprList : List Expression → ExpressionList
  | [] => ExpressionList.nil
  | e :: es => ExpressionList.cons e (listToExprList es)

mutual

/-- Additive level of the fuel-driven recursive-descent expression grammar. -/
def parseSum : Nat → List Tok → Option (Expression × List Tok)
  | 0, _ => none
  | Nat.succ fuel, ts =>
    match parseProd fuel ts with
    | none => none
    | some (e, ts1) => parseSumRest fuel e ts1

/-- Left-associated chain of plus and minus operators. -/
def parseSumRest : Nat → Expression → List Tok → Option (Expression × List Tok)
  | 0, _, _ => none
  | Nat.succ fuel, acc, Tok.plus :: rest =>
    match parseProd fuel rest with
    | none => none
    | some (e, ts1) => parseSumRest fuel (Expression.binary BinOp.add acc e) ts1
  | Nat.succ fuel, acc, Tok.minus :: rest =>
    match parseProd fuel rest with
    | none => none
    | some (e, ts1) => parseSumRest fuel (Expression.binary BinOp.sub acc e) ts1
  | Nat.succ _, acc, ts => some (acc, ts)

/-- Multiplicative level of the expression grammar. -/
def parseProd : Nat → List Tok → Option (Expression × List Tok)
  | 0, _ => none
  | Nat.succ fuel, ts =>
    match parseAtom fuel ts with
    | none => none
    | some (e, ts1) => parseProdRest fuel e ts1

/-- Left-associated chain of star and slash operators. -/
def parseProdRest : Nat → Expression → List Tok → Option (Expression × List Tok)
  | 0, _, _ => none
  | Nat.succ fuel, acc, Tok.star :: rest =>
    match parseAtom fuel rest with
    | none => none
    | some (e, ts1) => parseProdRest fuel (Expression.binary BinOp.mul acc e) ts1
  | Nat.succ fuel, acc, Tok.slash :: rest =>
    match parseAtom fuel rest with
    | none => none
    | some (e, ts1) => parseProdRest fuel (Expression.binary BinOp.div acc e) ts1
  | Nat.succ _, acc, ts => some (acc, ts)

/-- Atoms: literals, columns, function calls and parenthesized expressions. -/
def parseAtom : Nat → List Tok → Option (Expression × List Tok)
  | 0, _ => none
  | Nat.succ fuel, Tok.num n :: rest => some (Expression.numLit n, rest)
  | Nat.succ fuel, Tok.ident s :: Tok.lparen :: Tok.rparen :: rest =>
    some (Expression.call s ExpressionList.nil, rest)
  | Nat.succ fuel, Tok.ident s :: Tok.lparen :: rest =>
    match parseArgList fuel rest with
    | none => none
    | some (args, Tok.rparen :: ts2) => some (Expression.call s (listToExprList args), ts2)
    | some _ => none
  | Nat.succ fuel, Tok.ident s :: rest => some (Expression.column s, rest)
  | Nat.succ fuel, Tok.lparen :: rest =>
    match parseSum fuel rest with
    | none => none
    | some (e, Tok.rparen :: ts2) => some (Expression.paren e, ts2)
    | some _ => none
  | Nat.succ _, _ => none

/-- A nonempty comma-separated argument list. -/
def parseArgList : Nat → List Tok → Option (List Expression × List Tok)
  | 0, _ => none
  | Nat.succ fuel, ts =>
    match parseSum fuel ts with
    | none => none
    | some (e, ts1) => parseArgListRest fuel [e] ts1

/-- Remaining comma-separated arguments. -/
def parseArgListRest : Nat → List Expression → List Tok → Option (List Expression × List Tok)
  | 0, _, _ => none
  | Nat.succ fuel, acc, Tok.comma :: rest =>
    match parseSum fuel rest with
    | none => none
    | some (e, ts1) => parseArgListRest fuel (acc ++ [e]) ts1
  | Nat.succ _, acc, ts => some (acc, ts)

end

/-- Modelled from the spec: parse of the Expression Analyzer (section 4.1).
The repository calls sqlglot parse_one, which is external to src; this parses
the expression-fragment grammar the claims exercise and returns none where
sqlglot would raise a syntax error. -/
def parse_one (s : String) : Option Expression :=
  match tokenize s with
  | none => none
  | some ts =>
    match parseSum (4 * ts.length + 8) ts with
    | some (e, []) => some e
    | _ => none

/-- The MetricDisplayConfig dataclass. -/
structure MetricDisplayConfig where
  unit : String
  is_unit_prefix : Bool := false
  participant_singular : String := "participant"
  participant_plural : String := "participants"
  is_pct : Bool := false
deriving DecidableEq

/-- The Metric dataclass. -/
structure Metric where
  name : String
  per_row_select : String
  aggregate_select : String
  per_row_pandas : String
  aggregate_pandas : String
  per_row_column_type : ColumnType
  breakdown : Option String
  display : MetricDisplayConfig
  root_predicate : Option String := none
  is_target : Bool := true
  forced_dimensions : List String := []
deriving DecidableEq

/-- Metric.required_column_names: the union, as an unordered set, of the
column identifiers of the two independently parsed selects. The result is
none when a parse fails, modelling the lazily raised syntax error. -/
def Metric.required_column_names (m : Metric) : Option (Finset String) :=
  match parse_one m.per_row_select, parse_one m.aggregate_select with
  | some e1, some e2 => some (e1.columnsOf.toFinset ∪ e2.columnsOf.toFinset)
  | _, _ => none

/-- The Dimension dataclass. The Python field named where is spelled where_
because where is a Lean keyword. -/
structure Dimension where
  name : String
  select : String
  source : Option String
  default : Option String
  where_ : Option String
  segmentation : Option Segmentation
  parent : Option String
deriving DecidableEq

/-- Dimension hashing is by name, as in the Python hash method. -/
def Dimension.hashKey (d : Dimension) : String := d.name

/-- Dimension.is_derived: true iff the source field is absent. -/
def Dimension.is_derived (d : Dimension) : Bool := d.source.isNone

/-- Dimension.has_aggregate_func: whether the parsed select contains an
aggregate invocation; none when the parse fails (lazy syntax error). -/
def Dimension.has_aggregate_func (d : Dimension) : Option Bool :=
  (parse_one d.select).map Expression.containsAgg

/-- Dimension.required_column_names: the ordered column identifier list of the
parsed select; none when the parse fails (lazy syntax error). -/
def Dimension.required_column_names (d : Dimension) : Option (List String) :=
  (parse_one d.select).map Expression.columnsOf

/-- The Breakdown dataclass. Python Set of str fields are modelled as lists;
no claim inspects them. -/
structure Breakdown where
  name : String
  dimensions : List String
  ways : List Dimension
  exclude_ways : List String := []
deriving DecidableEq

/-- The Report dataclass. -/
structure Report where
  name : String
  period_length : Int
  period_offset : Int
  title : String
  tags : List String
  exclude_metrics : List String := []
  grow_orphan_at_max_depth : Int := 0
  grow_segment_at_max_depth : Int := 2
deriving DecidableEq

/-- The CpConfig dataclass. -/
structure CpConfig where
  profile : Profile
  sources : List Source
  dimensions : List Dimension
  where_ : Option String
  metrics : List Metric := []
  breakdowns : List Breakdown := []
  reports : List Report := []
deriving DecidableEq

/-- Ordered-dictionary lookup over the association-list model of a dict. -/
def lookupMap : List (String × List Dimension) → String → Option (List Dimension)
  | [], _ => none
  | (k, l) :: rest, q => if k = q then some l else lookupMap rest q

/-- Appends a dimension to the list at a key of the ordered dictionary,
creating the key at the end when absent, as dict insertion does. -/
def appendAssoc : List (String × List Dimension) → String → Dimension → List (String × List Dimension)
  | [], k, d => [(k, [d])]
  | (k1, l) :: rest, k, d =>
    if k1 = k then (k1, l ++ [d]) :: rest else (k1, l) :: appendAssoc rest k d

/-- One loop step of dimensions_per_source_name_map: dimensions whose source
is falsy (None or the empty string) are skipped. -/
def dimsStep (accum : List (String × List Dimension)) (d : Dimension) : List (String × List Dimension) :=
  match d.source with
  | none => accum
  | some s => if s.isEmpty then accum else appendAssoc accum s d

/-- CpConfig.dimensions_per_source_name_map: one pass over all dimensions,
insertion order preserved. -/
def CpConfig.dimensions_per_source_name_map (c : CpConfig) : List (String × List Dimension) :=
  c.dimensions.foldl dimsStep []

/-- A source with both key columns set to custom names and no explicit group_by. -/
def c1_src : Source := ⟨"s1", some "t", none, some "u", some "d", none, none, none, none, none⟩

/-- A categorical segmentation with a value formatter and no humanize hint. -/
def c2cex_seg : Segmentation := ⟨ColumnType.CATEGORICAL, none, some ContinuousValueFormatter.DAYS⟩

/-- A categorical segmentation with a value formatter and a humanize hint. -/
def c2wit_seg : Segmentation :=
  ⟨ColumnType.CATEGORICAL, some (Sum.inl "x"), some ContinuousValueFormatter.DAYS⟩

/-- Two valid sources sharing a name and differing in the filter field. -/
def c3_src1 : Source := ⟨"s", some "t", none, some "u", none, none, none, none, none, none⟩

/-- Second source of the pair sharing the name of the first. -/
def c3_src2 : Source := ⟨"s", some "t", none, some "u", none, some "w", none, none, none, none⟩

/-- Two dimensions sharing a name and differing in the select field. -/
def c3_dim1 : Dimension := ⟨"dim", "colx", none, none, none, none, none⟩

/-- Second dimension of the pair sharing the name of the first. -/
def c3_dim2 : Dimension := ⟨"dim", "coly", none, none, none, none, none⟩

/-- A valid table-mode source used to instantiate the mode invariant. -/
def c4wit_src : Source := ⟨"s4", some "t", none, some "u", none, none, none, none, none, none⟩

/-- A valid source used to instantiate the joinability invariant. -/
def c5wit_src : Source := ⟨"s5", none, some "create view v", none, none, none, none, some ["k"], none, none⟩

/-- A source with only the user key set and no explicit join or group list. -/
def c6_src : Source := ⟨"s6", some "t", none, some "u", none, none, none, none, none, none⟩

/-- A source with an explicit nonempty join_using list. -/
def c6wit_src : Source := ⟨"s6w", some "t", none, none, none, none, none, some ["j"], none, none⟩

/-- A metric whose selects are the pair named by the claim. -/
def c7_metric : Metric :=
  ⟨"m7", "price * qty", "SUM(price)", "", "", ColumnType.CONTINUOUS, none,
    ⟨"usd", false, "participant", "participants", false⟩, none, true, []⟩

/-- A dimension whose select is the aggregate expression named by the claim. -/
def c8_dimension : Dimension := ⟨"d8", "SUM(amount) + 1", some "src", none, none, none, none⟩

/-- A valid source whose name is the empty string. -/
def c9cex_src : Source := ⟨"", some "t", none, some "u", none, none, none, none, none, none⟩

/-- A dimension referencing the empty-named source. -/
def c9cex_dim : Dimension := ⟨"d9", "colx", some "", none, none, none, none⟩

/-- A configuration holding the empty-named source and its referencing dimension. -/
def c9cex_cfg : CpConfig :=
  ⟨⟨MaterializeIncrementalType.BIGQUERY⟩, [c9cex_src], [c9cex_dim], none, [], [], []⟩

/-- A valid source with an ordinary name. -/
def c9wit_src : Source := ⟨"s9", some "t", none, some "u", none, none, none, none, none, none⟩

/-- A dimension referencing the ordinary source by name. -/
def c9wit_dim : Dimension := ⟨"d9w", "colx", some "s9", none, none, none, none⟩

/-- A configuration holding the ordinary source and its referencing dimension. -/
def c9wit_cfg : CpConfig :=
  ⟨⟨MaterializeIncrementalType.BIGQUERY⟩, [c9wit_src], [c9wit_dim], none, [], [], []⟩

/-- A valid source with explicitly empty join_using and group_by lists. -/
def c10cex_src : Source := ⟨"sA", some "t", none, some "u", none, none, none, some [], some [], none⟩

/-- A source with an empty join_using list and a nonempty group_by list. -/
def c10wit_src : Source := ⟨"sB", some "t", none, none, none, none, none, some [], some ["g"], none⟩

/-- A source with both keys set and an explicitly empty group_by list. -/
def c10wit2_src : Source := ⟨"sC", some "t", none, some "u", some "d", none, none, none, some [], none⟩

/-- Claim C1 (amended): group_by_columns is the explicit group_by when that
field is not None; otherwise it is the literal canonical pair cp_user_id,
cp_date when both key columns are truthy, and empty otherwise. The field
values of the key columns never appear in the result. -/
theorem c1_group_by_columns_precedence (s : Source) :
    (∀ l, s.group_by = some l → s.group_by_columns = l) ∧
    (s.group_by = none → truthyStr s.cp_user_id = true → truthyStr s.cp_date = true →
      s.group_by_columns = ["cp_user_id", "cp_date"]) ∧
    (s.group_by = none → ¬(truthyStr s.cp_user_id = true ∧ truthyStr s.cp_date = true) →
      s.group_by_columns = []) := by
  refine ⟨fun l h => ?_, fun h hu hd => ?_, fun h hn => ?_⟩
  · simp [Source.group_by_columns, h]
  · simp [Source.group_by_columns, h, hu, hd]
  · have hcond : (truthyStr s.cp_user_id && truthyStr s.cp_date) = false := by
      cases hcu : truthyStr s.cp_user_id <;> cases hcd : truthyStr s.cp_date <;> simp_all
    simp [Source.group_by_columns, h, hcond]

/-- Claim C1 counterexample: with the user key set to u and the date key set
to d and no explicit group_by, group_by_columns is the literal canonical pair,
not the pair of field values. -/
theorem c1_counterexample :
    c1_src.group_by = none ∧ c1_src.cp_user_id = some "u" ∧ c1_src.cp_date = some "d" ∧
    Source.validate c1_src = Except.ok c1_src ∧
    c1_src.group_by_columns = ["cp_user_id", "cp_date"] ∧
    c1_src.group_by_columns ≠ ["u", "d"] :=
  ⟨rfl, rfl, rfl, rfl, rfl, by decide⟩

/-- Claim C1 witness: the amended precedence evaluated on a concrete source. -/
theorem c1_witness : c1_src.group_by_columns = ["cp_user_id", "cp_date"] :=
  (c1_group_by_columns_precedence c1_src).2.1 rfl (by decide) (by decide)

/-- Claim C2 (amended): when humanize is set, a segmentation with a
value_formatter and a non-continuous type fails construction; when humanize is
None no check runs, so construction succeeds regardless of value_formatter. -/
theorem c2_segmentation_value_formatter (s : Segmentation) :
    (s.humanize.isSome = true → s.value_formatter.isSome = true →
      s.type ≠ ColumnType.CONTINUOUS → ∀ t, Segmentation.validate s ≠ Except.ok t) ∧
    (s.humanize = none → Segmentation.validate s = Except.ok s) := by
  constructor
  · intro hh hv ht t
    cases hhum : s.humanize with
    | none => rw [hhum] at hh; simp at hh
    | some h => simp [Segmentation.validate, hhum, hv, ht]
  · intro hh
    simp [Segmentation.validate, hh]

/-- Claim C2 counterexample: a categorical segmentation with a value_formatter
and no humanize constructs successfully, though the claim says it must fail. -/
theorem c2_counterexample :
    c2cex_seg.type = ColumnType.CATEGORICAL ∧ c2cex_seg.value_formatter.isSome = true ∧
    Segmentation.validate c2cex_seg = Except.ok c2cex_seg :=
  ⟨rfl, rfl, rfl⟩

/-- Claim C2 witness: the amended failure case evaluated on a concrete
segmentation carrying a humanize hint. -/
theorem c2_witness : Segmentation.validate c2wit_seg ≠ Except.ok c2wit_seg :=
  (c2_segmentation_value_formatter c2wit_seg).1 rfl rfl (by decide) c2wit_seg

/-- Claim C3 (amended): hashing of Source and Dimension is by name, so equal
names give equal hash keys; equality is the generated dataclass equality over
all fields, so equal names alone do not imply equality. -/
theorem c3_identity_by_name (s1 s2 : Source) (d1 d2 : Dimension) :
    (s1.name = s2.name → s1.hashKey = s2.hashKey) ∧
    (d1.name = d2.name → d1.hashKey = d2.hashKey) ∧
    (s1 = s2 ↔ (s1.name = s2.name ∧ s1.table = s2.table ∧ s1.create_view = s2.create_view ∧
      s1.cp_user_id = s2.cp_user_id ∧ s1.cp_date = s2.cp_date ∧ s1.where_ = s2.where_ ∧
      s1.where_incremental = s2.where_incremental ∧ s1.join_using = s2.join_using ∧
      s1.group_by = s2.group_by ∧ s1.sync_from = s2.sync_from)) := by
  refine ⟨fun h => h, fun h => h, ?_⟩
  cases s1
  cases s2
  simp [Source.mk.injEq]

/-- Claim C3 counterexample: valid instances with equal names and different
other fields are unequal, for Source and for Dimension alike. -/
theorem c3_counterexample :
    c3_src1.name = c3_src2.name ∧ c3_src1 ≠ c3_src2 ∧
    c3_dim1.name = c3_dim2.name ∧ c3_dim1 ≠ c3_dim2 :=
  ⟨rfl, by decide, rfl, by decide⟩

/-- Claim C3 witness: equal names give equal hash keys on concrete sources. -/
theorem c3_witness : c3_src1.hashKey = c3_src2.hashKey :=
  (c3_identity_by_name c3_src1 c3_src2 c3_dim1 c3_dim2).1 rfl

/-- Claim C4: a successfully constructed source has exactly one truthy mode
among table, create_view and sync_from, and construction fails whenever the
count of truthy modes differs from one. -/
theorem c4_exactly_one_mode (s : Source) :
    (∀ t, Source.validate s = Except.ok t → s.mode.length = 1) ∧
    (s.mode.length ≠ 1 → ∀ t, Source.validate s ≠ Except.ok t) := by
  constructor
  · intro t h
    by_contra hne
    simp [Source.validate, hne] at h
  · intro hne t h
    simp [Source.validate, hne] at h

/-- Claim C4 witness: the mode count of a concrete valid source. -/
theorem c4_witness : c4wit_src.mode.length = 1 :=
  (c4_exactly_one_mode c4wit_src).1 c4wit_src rfl

/-- Claim C5: a successfully constructed source has a nonempty
join_using_columns, and a source with no user key, no date key, no join list
and no group list fails construction. -/
theorem c5_joinable_required (s : Source) :
    (∀ t, Source.validate s = Except.ok t → t.join_using_columns ≠ []) ∧
    (s.cp_user_id = none → s.cp_date = none → s.join_using = none → s.group_by = none →
      ∀ t, Source.validate s ≠ Except.ok t) := by
  constructor
  · intro t h hempty
    unfold Source.validate at h
    by_cases h1 : s.mode.length ≠ 1
    · simp [h1] at h
    · by_cases h2 : s.join_using_columns.isEmpty
      · simp [h1, h2] at h
      · simp [h1, h2] at h
        subst h
        exact h2 (by simp [hempty])
  · intro hu hd hj hg t h
    have hcols : s.join_using_columns = [] := by
      simp [Source.join_using_columns, pyOrList, hu, hd, hj, hg, truthyStr]
    by_cases h1 : s.mode.length ≠ 1
    · simp [Source.validate, h1] at h
    · simp [Source.validate, h1, hcols] at h

/-- Claim C5 witness: join_using_columns of a concrete valid source is
nonempty. -/
theorem c5_witness : c5wit_src.join_using_columns ≠ [] :=
  (c5_joinable_required c5wit_src).1 c5wit_src rfl

/-- Claim C6 (amended): join_using_columns is the explicit join_using list
when nonempty; else the group_by list when nonempty; else the sublist of the
literal canonical names cp_user_id, cp_date selected by which key columns are
truthy. -/
theorem c6_join_using_precedence (s : Source) :
    (truthyList s.join_using = true → s.join_using_columns = s.join_using.getD []) ∧
    (truthyList s.join_using = false → truthyList s.group_by = true →
      s.join_using_columns = s.group_by.getD []) ∧
    (truthyList s.join_using = false → truthyList s.group_by = false →
      s.join_using_columns =
        (if truthyStr s.cp_user_id then ["cp_user_id"] else []) ++
          (if truthyStr s.cp_date then ["cp_date"] else [])) := by
  refine ⟨fun hj => ?_, fun hj hg => ?_, fun hj hg => ?_⟩
  · cases hju : s.join_using with
    | none => rw [hju] at hj; simp [truthyList] at hj
    | some l =>
      rw [hju] at hj
      simp [truthyList] at hj
      simp [Source.join_using_columns, hju, pyOrList, hj]
  · have hnil : s.join_using.getD [] = [] := by
      cases hju : s.join_using with
      | none => rfl
      | some l =>
        rw [hju] at hj
        simp [truthyList] at hj
        simp [hj]
    cases hgb : s.group_by with
    | none => rw [hgb] at hg; simp [truthyList] at hg
    | some l =>
      rw [hgb] at hg
      simp [truthyList] at hg
      simp [Source.join_using_columns, hnil, hgb, pyOrList, hg]
  · have hnilj : s.join_using.getD [] = [] := by
      cases hju : s.join_using with
      | none => rfl
      | some l =>
        rw [hju] at hj
        simp [truthyList] at hj
        simp [hj]
    have hnilg : s.group_by.getD [] = [] := by
      cases hgb : s.group_by with
      | none => rfl
      | some l =>
        rw [hgb] at hg
        simp [truthyList] at hg
        simp [hg]
    simp only [Source.join_using_columns, hnilj, hnilg, pyOrList]
    cases hcu : truthyStr s.cp_user_id <;> cases hcd : truthyStr s.cp_date <;> simp

/-- Claim C6 counterexample: with only the user key set to u, the synthesized
join list is the literal canonical name, not the field value. -/
theorem c6_counterexample :
    c6_src.join_using = none ∧ c6_src.group_by = none ∧
    c6_src.cp_user_id = some "u" ∧ c6_src.cp_date = none ∧
    c6_src.join_using_columns = ["cp_user_id"] ∧ c6_src.join_using_columns ≠ ["u"] :=
  ⟨rfl, rfl, rfl, rfl, rfl, by decide⟩

/-- Claim C6 witness: the explicit join list branch evaluated on a concrete
source. -/
theorem c6_witness : c6wit_src.join_using_columns = ["j"] :=
  (c6_join_using_precedence c6wit_src).1 rfl

/-- Claim C7: the metric with per-row select price times qty and aggregate
select SUM of price has required_column_names equal to the unordered set of
price and qty, written in either order. -/
theorem c7_metric_required_columns :
    c7_metric.required_column_names = some ({"price", "qty"} : Finset String) ∧
    c7_metric.required_column_names = some ({"qty", "price"} : Finset String) := by
  have h : c7_metric.required_column_names =
      some ((["price", "qty"].toFinset ∪ ["price"].toFinset : Finset String)) := rfl
  constructor
  · rw [h]
    congr 1
    ext x
    simp
    try tauto
  · rw [h]
    congr 1

/-- Claim C8: the dimension selecting SUM of amount plus one contains an
aggregate invocation and requires exactly the ordered column list amount. -/
theorem c8_dimension_analysis :
    c8_dimension.has_aggregate_func = some true ∧
    c8_dimension.required_column_names = some ["amount"] :=
  ⟨rfl, rfl⟩

/-- Lookup after appending at the same key yields the previous list, empty
when the key was absent, extended with the new dimension. -/
theorem lookupMap_appendAssoc_self (a : List (String × List Dimension)) (k : String) (d : Dimension) :
    lookupMap (appendAssoc a k d) k = some ((lookupMap a k).getD [] ++ [d]) := by
  induction a with
  | nil => simp [appendAssoc, lookupMap]
  | cons p rest ih =>
    obtain ⟨k1, l⟩ := p
    by_cases h : k1 = k
    · subst h
      simp [appendAssoc, lookupMap]
    · simp [appendAssoc, lookupMap, h, ih]

/-- Lookup at a different key is unchanged by appending. -/
theorem lookupMap_appendAssoc_ne (a : List (String × List Dimension)) (k q : String) (d : Dimension)
    (h : q ≠ k) :
    lookupMap (appendAssoc a k d) q = lookupMap a q := by
  have hk : k ≠ q := fun hh => h hh.symm
  induction a with
  | nil => simp [appendAssoc, lookupMap, hk]
  | cons p rest ih =>
    obtain ⟨k1, l⟩ := p
    by_cases h1 : k1 = k
    · subst h1
      simp [appendAssoc, lookupMap, hk]
    · simp [appendAssoc, lookupMap, h1, ih]

/-- Membership in the accumulated map is preserved by folding further
dimensions. -/
theorem mem_foldl_dimsStep_preserved (ds : List Dimension) :
    ∀ accum : List (String × List Dimension), ∀ q : String, ∀ d : Dimension,
      (∃ l, lookupMap accum q = some l ∧ d ∈ l) →
      ∃ l, lookupMap (ds.foldl dimsStep accum) q = some l ∧ d ∈ l := by
  induction ds with
  | nil => intro accum q d h; exact h
  | cons d1 ds ih =>
    intro accum q d h
    rw [List.foldl_cons]
    apply ih
    obtain ⟨l, hl, hd⟩ := h
    unfold dimsStep
    cases hs : d1.source with
    | none => exact ⟨l, hl, hd⟩
    | some s =>
      by_cases he : s.isEmpty = true
      · simp [he]
        exact ⟨l, hl, hd⟩
      · simp [he]
        by_cases hk : s = q
        · subst hk
          rw [lookupMap_appendAssoc_self]
          refine ⟨_, rfl, ?_⟩
          rw [hl]
          simp [hd]
        · rw [lookupMap_appendAssoc_ne _ _ _ _ (fun hh => hk hh.symm)]
          exact ⟨l, hl, hd⟩

/-- Every dimension of the folded list with a truthy source name is present in
the map entry of that name. -/
theorem foldl_dimsStep_mem (ds : List Dimension) :
    ∀ accum : List (String × List Dimension), ∀ d : Dimension, ∀ q : String,
      d ∈ ds → d.source = some q → q.isEmpty = false →
      ∃ l, lookupMap (ds.foldl dimsStep accum) q = some l ∧ d ∈ l := by
  induction ds with
  | nil => intro accum d q hd hs hq; cases hd
  | cons d1 ds ih =>
    intro accum d q hd hs hq
    rw [List.foldl_cons]
    rcases List.mem_cons.mp hd with heq | hmem
    · subst heq
      apply mem_foldl_dimsStep_preserved
      unfold dimsStep
      rw [hs]
      simp [hq]
      rw [lookupMap_appendAssoc_self]
      refine ⟨_, rfl, ?_⟩
      simp
    · exact ih (dimsStep accum d1) d q hmem hs hq

/-- A key referenced by no folded dimension stays absent from the map. -/
theorem foldl_dimsStep_none (ds : List Dimension) :
    ∀ accum : List (String × List Dimension), ∀ q : String,
      lookupMap accum q = none → (∀ d ∈ ds, d.source ≠ some q) →
      lookupMap (ds.foldl dimsStep accum) q = none := by
  induction ds with
  | nil => intro accum q hacc h; exact hacc
  | cons d1 ds ih =>
    intro accum q hacc h
    rw [List.foldl_cons]
    apply ih
    · unfold dimsStep
      cases hs : d1.source with
      | none => exact hacc
      | some s =>
        by_cases he : s.isEmpty = true
        · simp [he]
          exact hacc
        · simp [he]
          rw [lookupMap_appendAssoc_ne _ _ _ _ ?_]
          · exact hacc
          · intro hh
            exact h d1 (by simp) (by rw [hs, hh])
    · intro d hd
      exact h d (List.mem_cons_of_mem _ hd)

/-- Claim C9 (amended): every dimension whose source field names a nonempty
source name appears in the map entry for that name, and the map has no entry
for a name that zero dimensions reference. -/
theorem c9_dimensions_per_source_map (c : CpConfig) :
    (∀ d ∈ c.dimensions, ∀ q, d.source = some q → q.isEmpty = false →
      ∃ l, lookupMap c.dimensions_per_source_name_map q = some l ∧ d ∈ l) ∧
    (∀ q, (∀ d ∈ c.dimensions, d.source ≠ some q) →
      lookupMap c.dimensions_per_source_name_map q = none) := by
  constructor
  · intro d hd q hs hq
    exact foldl_dimsStep_mem c.dimensions [] d q hd hs hq
  · intro q h
    exact foldl_dimsStep_none c.dimensions [] q rfl h

/-- Claim C9 counterexample: a dimension referencing a source whose name is
the empty string is dropped, so the map has no entry for that source name. -/
theorem c9_counterexample :
    c9cex_dim ∈ c9cex_cfg.dimensions ∧ c9cex_src ∈ c9cex_cfg.sources ∧
    c9cex_dim.source = some c9cex_src.name ∧
    Source.validate c9cex_src = Except.ok c9cex_src ∧
    lookupMap c9cex_cfg.dimensions_per_source_name_map c9cex_src.name = none :=
  ⟨by decide, by decide, rfl, rfl, rfl⟩

/-- Claim C9 witness: the round trip evaluated on a concrete configuration. -/
theorem c9_witness :
    ∃ l, lookupMap c9wit_cfg.dimensions_per_source_name_map "s9" = some l ∧ c9wit_dim ∈ l :=
  (c9_dimensions_per_source_map c9wit_cfg).1 c9wit_dim (by decide) "s9" rfl (by decide)

/-- Claim C10 (amended): an explicitly empty join_using is ignored and the
fallback chain is taken, so with a nonempty group_by the join columns equal
the group_by list; an explicitly empty group_by is honored, so
group_by_columns is empty even when both key columns are set. -/
theorem c10_empty_list_handling (s : Source) (l : List String) :
    (s.join_using = some [] → s.group_by = some l → l ≠ [] → s.join_using_columns = l) ∧
    (s.group_by = some [] → s.group_by_columns = []) := by
  constructor
  · intro hj hg hl
    have hle : l.isEmpty = false := by
      cases l with
      | nil => exact absurd rfl hl
      | cons a as => rfl
    simp [Source.join_using_columns, hj, hg, pyOrList, hle]
  · intro hg
    simp [Source.group_by_columns, hg]

/-- Claim C10 counterexample: a source constructed with an empty join_using
and an empty, non-None, group_by has join columns synthesized from the keys,
not equal to the group_by value. -/
theorem c10_counterexample :
    c10cex_src.join_using = some [] ∧ c10cex_src.group_by = some [] ∧
    Source.validate c10cex_src = Except.ok c10cex_src ∧
    c10cex_src.join_using_columns = ["cp_user_id"] ∧
    c10cex_src.join_using_columns ≠ c10cex_src.group_by.getD [] :=
  ⟨rfl, rfl, rfl, rfl, by decide⟩

/-- Claim C10 witness: both amended branches evaluated on concrete sources. -/
theorem c10_witness :
    c10wit_src.join_using_columns = ["g"] ∧ c10wit2_src.group_by_columns = [] :=
  ⟨(c10_empty_list_handling c10wit_src ["g"]).1 rfl rfl (by decide),
   (c10_empty_list_handling c10wit2_src []).2 rfl⟩

end Cpconfig
